import Mathlib

/-!
Shallow embedding of the temporal-interval reconciliation engine of
`mortar_sqlalchemy/mixins/temporal.py`.

Timestamps are a linearly ordered type `T`; an interval bound of `none`
models SQL NULL (unbounded past for a lower bound, unbounded future for an
upper bound).  A stored row (`Temporal`) mirrors the test model of the
repository (`key_columns = ["key"]`, a single value column `value`), so the
key tuple and the value tuple are single strings; tuple equality is string
equality, exactly the comparison the engine performs.  The session is a list
of rows; `session.delete` / attribute assignment / `session.add` become
list surgery keyed by `id`.  The overlap query is Postgres `&&` on `[)`
ranges plus `ORDER BY period` (lower bound first, NULL lower sorting first,
then upper bound, NULL upper sorting last); `session.flush` is immediate, so
it is the identity here.  Log records become `(level, message)` pairs built
with the literal `%` templates of the source.
-/

namespace Mortar

/-- `starts_before` of temporal.py: `s_from is None or (o_from is not None and s_from < o_from)`. -/
def starts_before {T : Type} [LinearOrder T] : Option T → Option T → Bool
  | none, _ => true
  | some _, none => false
  | some s, some o => decide (s < o)

/-- `ends_at_or_after` of temporal.py: `s_to is None or s_to == o_to or (o_to is not None and s_to > o_to)`. -/
def ends_at_or_after {T : Type} [LinearOrder T] : Option T → Option T → Bool
  | none, _ => true
  | some _, none => false
  | some s, some o => decide (s = o) || decide (o < s)

/-- `ends_after` of temporal.py: `o_to is not None and (s_to is None or s_to > o_to)`. -/
def ends_after {T : Type} [LinearOrder T] : Option T → Option T → Bool
  | _, none => false
  | none, some _ => true
  | some s, some o => decide (o < s)

/-- `earliest` of temporal.py: `None if (x is None or y is None) else min(x, y)`. -/
def earliest {T : Type} [LinearOrder T] : Option T → Option T → Option T
  | some x, some y => some (min x y)
  | _, _ => none

/-- `latest` of temporal.py: `None if (x is None or y is None) else max(x, y)`. -/
def latest {T : Type} [LinearOrder T] : Option T → Option T → Option T
  | some x, some y => some (max x y)
  | _, _ => none

/-- Rendering of a timestamp as Python `str()` renders it inside log messages. -/
class TimeText (T : Type) where
  text : T → String

instance : TimeText Nat := ⟨toString⟩

/-- `period_str` of temporal.py. -/
def period_str {T : Type} [TimeText T] : Option T → Option T → String
  | none, none => "always"
  | none, some t => "until " ++ TimeText.text t
  | some f, none => TimeText.text f ++ " onwards"
  | some f, some t => TimeText.text f ++ " to " ++ TimeText.text t

/-- A `[)` timestamp range (psycopg `Range`): `none` bounds are unbounded. -/
structure PRange (T : Type) where
  lower : Option T
  upper : Option T
deriving DecidableEq, Repr

/-- A range with both bounds set and `lower >= upper` is empty (Postgres
normalises `[t, t)` to `empty`; `lower > upper` is rejected by Postgres, and
such a range never reaches the store). -/
def PRange.isNonempty {T : Type} [LinearOrder T] (p : PRange T) : Bool :=
  match p.lower, p.upper with
  | some a, some b => decide (a < b)
  | _, _ => true

/-- `a < b` where `a` is a lower bound (`none` = unbounded past) and `b` an
upper bound (`none` = unbounded future). -/
def lowerBeforeUpper {T : Type} [LinearOrder T] : Option T → Option T → Bool
  | _, none => true
  | none, some _ => true
  | some a, some b => decide (a < b)

/-- Postgres `&&` on `[)` ranges: a common instant exists.  Empty ranges
overlap nothing. -/
def rangesOverlap {T : Type} [LinearOrder T] (p q : PRange T) : Bool :=
  p.isNonempty && q.isNonempty &&
    lowerBeforeUpper p.lower q.upper && lowerBeforeUpper q.lower p.upper

/-- Lower-bound order for `ORDER BY period`: NULL lower (unbounded past) first. -/
def lowerLE {T : Type} [LinearOrder T] : Option T → Option T → Bool
  | none, _ => true
  | some _, none => false
  | some a, some b => decide (a ≤ b)

/-- Upper-bound order for `ORDER BY period`: NULL upper (unbounded future) last. -/
def upperLE {T : Type} [LinearOrder T] : Option T → Option T → Bool
  | _, none => true
  | none, some _ => false
  | some a, some b => decide (a ≤ b)

/-- Postgres range comparison used by `ORDER BY period`: lower bounds first,
then upper bounds. -/
def rangeLE {T : Type} [LinearOrder T] (p q : PRange T) : Bool :=
  if p.lower = q.lower then upperLE p.upper q.upper else lowerLE p.lower q.lower

/-- Postgres `@>` for an instant: `period.contains(timestamp)` with `[)` bounds. -/
def containsTime {T : Type} [LinearOrder T] (p : PRange T) (t : T) : Bool :=
  (match p.lower with | none => true | some a => decide (a ≤ t)) &&
  (match p.upper with | none => true | some b => decide (t < b))

/-- A persisted or candidate row of the test model of temporal.py:
one key column named `key`, one value column named `value`, the `period`
range, and the integer primary key `id`. -/
structure Temporal (T : Type) where
  id : Nat
  key : String
  value : String
  period : PRange T
deriving DecidableEq, Repr

/-- `value_from` property getter. -/
def Temporal.value_from {T : Type} (r : Temporal T) : Option T := r.period.lower

/-- `value_to` property getter. -/
def Temporal.value_to {T : Type} (r : Temporal T) : Option T := r.period.upper

/-- `value_from` property setter on a row whose period is set. -/
def Temporal.setValueFrom {T : Type} (r : Temporal T) (t : Option T) : Temporal T :=
  { r with period := ⟨t, r.period.upper⟩ }

/-- `value_to` property setter on a row whose period is set. -/
def Temporal.setValueTo {T : Type} (r : Temporal T) (t : Option T) : Temporal T :=
  { r with period := ⟨r.period.lower, t⟩ }

/-- `pretty_key`: `', '.join('%s=%r' % ...)` over `key_columns = ["key"]`. -/
def Temporal.pretty_key {T : Type} (r : Temporal T) : String :=
  "key='" ++ r.key ++ "'"

/-- `pretty_value`: a single value column, so the raw value itself. -/
def Temporal.pretty_value {T : Type} (r : Temporal T) : String := r.value

/-- `period_str` method of a row. -/
def Temporal.periodStr {T : Type} [TimeText T] (r : Temporal T) : String :=
  period_str r.value_from r.value_to

/-- The session: a list of persisted rows. -/
abbrev Store (T : Type) := List (Temporal T)

/-- `session.delete(r)` (flushed immediately). -/
def delRec {T : Type} (store : Store T) (i : Nat) : Store T :=
  store.filter (fun r => !(decide (r.id = i)))

/-- Attribute assignment on a persisted row, applied in place. -/
def updRec {T : Type} (store : Store T) (i : Nat) (f : Temporal T → Temporal T) : Store T :=
  store.map (fun r => if r.id = i then f r else r)

/-- A primary key the store does not use yet, for `session.add`. -/
def freshId {T : Type} (store : Store T) : Nat :=
  store.foldr (fun r m => max (r.id + 1) m) 0

/-- Insertion into a `le`-sorted list. -/
def insertByLE {α : Type} (le : α → α → Bool) (x : α) : List α → List α
  | [] => [x]
  | y :: ys => if le x y then x :: y :: ys else y :: insertByLE le x ys

/-- Insertion sort with a boolean `le`. -/
def sortByLE {α : Type} (le : α → α → Bool) : List α → List α
  | [] => []
  | x :: xs => insertByLE le x (sortByLE le xs)

/-- The `overlaps` query: rows of the same key whose period `&&`-overlaps
`self.period`, ordered by `period`. -/
def Temporal.overlaps {T : Type} [LinearOrder T] (self : Temporal T) (store : Store T) :
    Store T :=
  sortByLE (fun a b => rangeLE a.period b.period)
    (store.filter (fun r => decide (r.key = self.key) && rangesOverlap r.period self.period))

/-- One structured log record: `(severity level, message)`. -/
structure LogEvent where
  level : Nat
  msg : String
deriving DecidableEq, Repr

/-- The keyword arguments of `set_for_period`; the numeric defaults are
`logging.INFO = 20`, `logging.WARNING = 30`, `logging.DEBUG = 10`. -/
structure Config where
  coalesce : Bool := true
  set_logging : Nat := 20
  change_logging : Nat := 30
  unchanged_logging : Nat := 10
deriving DecidableEq, Repr

/-- `log_set` closure: `'%s from %s set to %s'`. -/
def log_set {T : Type} [TimeText T] (cfg : Config) (self : Temporal T)
    (vf vt : Option T) : LogEvent :=
  ⟨cfg.set_logging,
    self.pretty_key ++ " from " ++ period_str vf vt ++ " set to " ++ self.pretty_value⟩

/-- `log_changed_value` closure: `'%s from %s changed from %s to %s'`. -/
def log_changed_value {T : Type} [TimeText T] (cfg : Config) (self e : Temporal T)
    (vf vt : Option T) : LogEvent :=
  ⟨cfg.change_logging,
    self.pretty_key ++ " from " ++ period_str vf vt ++ " changed from " ++
      e.pretty_value ++ " to " ++ self.pretty_value⟩

/-- `log_changed_period` closure (logged at `set_logging`):
`'%s changed period from %s to %s'`; it reads `existing.period_str()` at call
time, so the row passed here must carry the period current at that moment. -/
def log_changed_period {T : Type} [TimeText T] (cfg : Config) (self e : Temporal T)
    (vf vt : Option T) : LogEvent :=
  ⟨cfg.set_logging,
    self.pretty_key ++ " changed period from " ++ e.periodStr ++ " to " ++ period_str vf vt⟩

/-- `log_unchanged` closure: `'%s from %s left at %s'` over the current
`self_from`/`self_to` loop variables. -/
def log_unchanged {T : Type} [TimeText T] (cfg : Config) (self : Temporal T)
    (sf st : Option T) : LogEvent :=
  ⟨cfg.unchanged_logging,
    self.pretty_key ++ " from " ++ period_str sf st ++ " left at " ++ self.pretty_value⟩

/-- The mutable state of the `set_for_period` loop: the session, the candidate
object (whose period the loop reassigns), the loop-local copies
`self_from` / `current_from` / `self_to`, the `create` flag and the log so far. -/
structure LoopState (T : Type) where
  store : Store T
  selfRec : Temporal T
  self_from : Option T
  current_from : Option T
  self_to : Option T
  create : Bool
  logs : List LogEvent
deriving DecidableEq, Repr

/-- One iteration of the `for existing, is_first, is_last in _windowed(...)`
loop of `set_for_period`, following the source line by line.  Returns the new
state and `true` when the body executed `break`. -/
def sfpStep {T : Type} [LinearOrder T] [TimeText T] (cfg : Config) (st : LoopState T)
    (e : Temporal T) (isLast : Bool) : LoopState T × Bool :=
  let existing_from := e.value_from
  let existing_to := e.value_to
  let csb := starts_before st.current_from existing_from
  let logs0 := if csb then st.logs ++ [log_set cfg st.selfRec st.current_from existing_from]
               else st.logs
  if cfg.coalesce && !(decide (st.self_from = existing_from)) &&
      decide (st.selfRec.value = e.value) then
    -- coalesce branch: absorb `existing` into the candidate, or log unchanged
    if csb || ends_after st.self_to existing_to then
      let sf := earliest st.self_from existing_from
      ({ st with store := delRec st.store e.id,
                 selfRec := (st.selfRec.setValueFrom sf).setValueTo (latest st.self_to existing_to),
                 self_from := sf,
                 current_from := existing_to,
                 logs := logs0 }, false)
    else
      ({ st with logs := logs0 ++ [log_unchanged cfg st.selfRec st.self_from st.self_to],
                 create := false,
                 current_from := existing_to }, false)
  else if st.self_to.isNone && (csb || !isLast) then
    -- open-ended candidate special case; always breaks
    if starts_before st.self_from existing_from then
      ({ st with selfRec := st.selfRec.setValueTo existing_from,
                 self_to := existing_from,
                 current_from := existing_from,
                 logs := logs0 }, true)
    else if st.self_from = existing_from then
      if decide (st.selfRec.value = e.value) then
        ({ st with selfRec := st.selfRec.setValueTo existing_to,
                   self_to := existing_to,
                   current_from := existing_to,
                   create := false,
                   logs := logs0 ++ [log_unchanged cfg st.selfRec st.self_from existing_to] }, true)
      else
        ({ st with store := delRec st.store e.id,
                   selfRec := st.selfRec.setValueTo existing_to,
                   self_to := existing_to,
                   current_from := existing_to,
                   logs := logs0 ++ [log_changed_value cfg st.selfRec e st.self_from existing_to] },
         true)
    else
      ({ st with store := updRec st.store e.id (fun r => r.setValueTo st.self_from),
                 selfRec := st.selfRec.setValueTo existing_to,
                 self_to := existing_to,
                 current_from := existing_to,
                 logs := logs0 ++ [log_changed_value cfg st.selfRec e st.self_from existing_to] },
       true)
  else if csb then
    if ends_at_or_after st.self_to existing_to then
      ({ st with store := delRec st.store e.id,
                 current_from := existing_to,
                 logs := logs0 ++ [log_changed_value cfg st.selfRec e existing_from existing_to] },
       false)
    else
      ({ st with store := updRec st.store e.id (fun r => r.setValueFrom st.self_to),
                 current_from := existing_to,
                 logs := logs0 ++ [log_changed_value cfg st.selfRec e existing_from st.self_to] },
       false)
  else if st.current_from = existing_from then
    -- `existing` superseded on this sub-segment
    let keepTrunc := !(decide (st.self_from = st.current_from)) && ends_after existing_to st.self_to
    let store1 := if keepTrunc then updRec st.store e.id (fun r => r.setValueFrom st.self_to)
                  else delRec st.store e.id
    let e1 := if keepTrunc then e.setValueFrom st.self_to else e
    if decide (st.selfRec.value = e.value) then
      if st.self_to = existing_to then
        ({ st with store := store1,
                   current_from := existing_to,
                   logs := logs0 ++ [log_unchanged cfg st.selfRec st.self_from st.self_to] }, false)
      else
        -- the source rebinds `existing_to = self_to` here, so `current_from`
        -- advances to `self_to`
        ({ st with store := store1,
                   current_from := st.self_to,
                   logs := logs0 ++ [log_changed_period cfg st.selfRec e1 existing_from st.self_to] },
         false)
    else
      if ends_after st.self_to existing_to then
        ({ st with store := store1,
                   current_from := existing_to,
                   logs := logs0 ++ [log_changed_value cfg st.selfRec e1 existing_from existing_to] },
         false)
      else
        ({ st with store := store1,
                   current_from := existing_to,
                   logs := logs0 ++ [log_changed_value cfg st.selfRec e1 existing_from st.self_to] },
         false)
  else
    if existing_to = none then
      ({ st with store := updRec st.store e.id (fun r => r.setValueTo st.self_from),
                 current_from := existing_to,
                 logs := logs0 ++ [log_set cfg st.selfRec st.self_from st.self_to] }, false)
    else if decide (st.selfRec.value = e.value) then
      ({ st with store := updRec st.store e.id (fun r => r.setValueFrom st.current_from),
                 current_from := existing_to,
                 logs := logs0 ++ [log_changed_period cfg st.selfRec e st.current_from existing_to] },
       false)
    else
      ({ st with store := updRec st.store e.id (fun r => r.setValueTo st.self_from),
                 current_from := existing_to,
                 logs := logs0 ++ [log_changed_value cfg st.selfRec e st.self_from existing_to] },
       false)

/-- The loop over the windowed overlap stream; `rest.isEmpty` is `is_last`. -/
def sfpLoop {T : Type} [LinearOrder T] [TimeText T] (cfg : Config) :
    LoopState T → Store T → LoopState T
  | st, [] => st
  | st, e :: rest =>
    let p := sfpStep cfg st e rest.isEmpty
    if p.2 then p.1 else sfpLoop cfg p.1 rest

/-- The rows the overlap query actually fetches: `limit(2)` applies exactly
when the candidate is open-ended and `coalesce` is off. -/
def fetchOverlapping {T : Type} [LinearOrder T] (cfg : Config) (self : Temporal T)
    (store : Store T) : Store T :=
  if self.value_to.isNone && !cfg.coalesce then (self.overlaps store).take 2
  else self.overlaps store

/-- `Temporal.set_for_period(self, session, coalesce, ...)`: returns the
session contents after the call together with the emitted log records. -/
def set_for_period {T : Type} [LinearOrder T] [TimeText T] (cfg : Config)
    (self : Temporal T) (store : Store T) : Store T × List LogEvent :=
  let st0 : LoopState T :=
    ⟨store, self, self.value_from, self.value_from, self.value_to, true, []⟩
  let st := sfpLoop cfg st0 (fetchOverlapping cfg self store)
  let logs := if ends_after st.self_to st.current_from
              then st.logs ++ [log_set cfg st.selfRec st.current_from st.self_to]
              else st.logs
  let store1 := if st.create then st.store ++ [{ st.selfRec with id := freshId st.store }]
                else st.store
  (store1, logs)

/-- The persisted state a caller observes: rows without their surrogate ids. -/
def rows {T : Type} (store : Store T) : List (String × String × Option T × Option T) :=
  store.map (fun r => (r.key, r.value, r.period.lower, r.period.upper))

/-- `value_at`: the values of the rows of key `k` whose period contains `t`. -/
def value_at {T : Type} [LinearOrder T] (store : Store T) (k : String) (t : T) :
    List String :=
  (store.filter (fun r => decide (r.key = k) && containsTime r.period t)).map Temporal.value

/-- The Constraint Policy for one key: pairwise non-overlapping periods. -/
def pairwiseDisjoint {T : Type} [LinearOrder T] (store : Store T) (k : String) : Prop :=
  (store.filter (fun r => decide (r.key = k))).Pairwise
    (fun a b => rangesOverlap a.period b.period = false)

/-- The Constraint Policy for one key: no empty period. -/
def allNonempty {T : Type} [LinearOrder T] (store : Store T) (k : String) : Prop :=
  ∀ r ∈ store, r.key = k → r.period.isNonempty = true

instance {T : Type} [LinearOrder T] (store : Store T) (k : String) :
    Decidable (pairwiseDisjoint store k) := by
  unfold pairwiseDisjoint; infer_instance

instance {T : Type} [LinearOrder T] (store : Store T) (k : String) :
    Decidable (allNonempty store k) := by
  unfold allNonempty; infer_instance

/-- Modelled from the spec: the reference semantics of §9 — identical to
`set_for_period` except that the overlap walk always consumes all overlapping
rows, never only the first two fetched by the `limit(2)` optimization. -/
def set_for_period_allRows {T : Type} [LinearOrder T] [TimeText T] (cfg : Config)
    (self : Temporal T) (store : Store T) : Store T × List LogEvent :=
  let st0 : LoopState T :=
    ⟨store, self, self.value_from, self.value_from, self.value_to, true, []⟩
  let st := sfpLoop cfg st0 (self.overlaps store)
  let logs := if ends_after st.self_to st.current_from
              then st.logs ++ [log_set cfg st.selfRec st.current_from st.self_to]
              else st.logs
  let store1 := if st.create then st.store ++ [{ st.selfRec with id := freshId st.store }]
                else st.store
  (store1, logs)

/-- `Temporal.__init__(self, **kw)`: `value_from`/`value_to` are popped with
default `None`; a `datetime` is always truthy in Python, so the `if value_from
or value_to` test is `isSome` here.  `periodGiven` models `'period' in kw`
(presence of the keyword, whatever its value `periodVal`).  On success, the
period assigned to the new object is returned. -/
def temporalInit {T : Type} (vf vt : Option T) (periodGiven : Bool)
    (periodVal : Option (PRange T)) : Except String (Option (PRange T)) :=
  if vf.isSome || vt.isSome then
    if periodGiven then Except.error "period not allowed if value_from or value_to used"
    else Except.ok (some ⟨vf, vt⟩)
  else Except.ok (if periodGiven then periodVal else none)

/-- The `value_from` property setter on an object whose `period` may be unset:
`upper = None if self.period is None else self.period.upper;
self.period = Range(timestamp, upper)`. -/
def set_value_from {T : Type} (period : Option (PRange T)) (t : Option T) :
    Option (PRange T) :=
  some ⟨t, match period with | none => none | some p => p.upper⟩

/-- The `value_to` property setter on an object whose `period` may be unset. -/
def set_value_to {T : Type} (period : Option (PRange T)) (t : Option T) :
    Option (PRange T) :=
  some ⟨(match period with | none => none | some p => p.lower), t⟩

/-- A wall-clock instant as Python `datetime` carries it (microseconds zero,
as in every scenario of the spec); field bounds make the mixed-radix encoding
below injective. -/
structure DateTime where
  year : Nat
  month : Fin 13
  day : Fin 32
  hour : Fin 24
  minute : Fin 60
  second : Fin 60
deriving DecidableEq, Repr

/-- Mixed-radix encoding of a `DateTime`; datetime comparison is lexicographic
on the fields, which coincides with `Nat` order on this encoding. -/
def DateTime.code (d : DateTime) : Nat :=
  ((((d.year * 13 + d.month.val) * 32 + d.day.val) * 24 + d.hour.val) * 60 +
    d.minute.val) * 60 + d.second.val

theorem DateTime.code_injective : Function.Injective DateTime.code := by
  rintro ⟨y1, m1, d1, h1, i1, s1⟩ ⟨y2, m2, d2, h2, i2, s2⟩ h
  simp only [DateTime.code] at h
  simp only [DateTime.mk.injEq]
  have hm1 := m1.isLt
  have hm2 := m2.isLt
  have hd1 := d1.isLt
  have hd2 := d2.isLt
  have hh1 := h1.isLt
  have hh2 := h2.isLt
  have hi1 := i1.isLt
  have hi2 := i2.isLt
  have hs1 := s1.isLt
  have hs2 := s2.isLt
  refine ⟨?_, ?_, ?_, ?_, ?_, ?_⟩
  · omega
  all_goals apply Fin.ext; omega

instance : LinearOrder DateTime := LinearOrder.lift' DateTime.code DateTime.code_injective

/-! Basic facts about the embedded operations, shared by the claim proofs. -/

theorem freshId_lt {T : Type} (store : Store T) : ∀ r ∈ store, r.id < freshId store := by
  induction store with
  | nil => simp
  | cons a l ih =>
    intro r hr
    have ha : freshId (a :: l) = max (a.id + 1) (freshId l) := rfl
    rcases List.mem_cons.mp hr with rfl | hr
    · omega
    · have := ih r hr
      omega

theorem delRec_append {T : Type} (store : Store T) (x : Temporal T)
    (h : ∀ r ∈ store, r.id ≠ x.id) : delRec (store ++ [x]) x.id = store := by
  unfold delRec
  rw [List.filter_append]
  have h1 : store.filter (fun r => !(decide (r.id = x.id))) = store :=
    List.filter_eq_self.mpr (by intro r hr; simpa using h r hr)
  have h2 : [x].filter (fun r => !(decide (r.id = x.id))) = [] := by simp
  rw [h1, h2, List.append_nil]

theorem overlaps_eq_nil {T : Type} [LinearOrder T] (c : Temporal T) (store : Store T)
    (h : ∀ r ∈ store, r.key = c.key → rangesOverlap r.period c.period = false) :
    c.overlaps store = [] := by
  unfold Temporal.overlaps
  have h1 : store.filter
      (fun r => decide (r.key = c.key) && rangesOverlap r.period c.period) = [] := by
    apply List.filter_eq_nil_iff.mpr
    intro r hr
    simp only [Bool.and_eq_true, decide_eq_true_eq, not_and]
    intro hk
    simp [h r hr hk]
  rw [h1]
  rfl

theorem overlaps_append_singleton {T : Type} [LinearOrder T] (c x : Temporal T)
    (store : Store T)
    (h : ∀ r ∈ store, r.key = c.key → rangesOverlap r.period c.period = false)
    (hk : x.key = c.key) (ho : rangesOverlap x.period c.period = true) :
    c.overlaps (store ++ [x]) = [x] := by
  unfold Temporal.overlaps
  rw [List.filter_append]
  have h1 : store.filter
      (fun r => decide (r.key = c.key) && rangesOverlap r.period c.period) = [] := by
    apply List.filter_eq_nil_iff.mpr
    intro r hr
    simp only [Bool.and_eq_true, decide_eq_true_eq, not_and]
    intro hkr
    simp [h r hr hkr]
  have h2 : [x].filter
      (fun r => decide (r.key = c.key) && rangesOverlap r.period c.period) = [x] := by
    simp [hk, ho]
  rw [h1, h2]
  rfl

theorem sfpLoop_singleton {T : Type} [LinearOrder T] [TimeText T] (cfg : Config)
    (st : LoopState T) (e : Temporal T) :
    sfpLoop cfg st [e] = (sfpStep cfg st e true).1 := by
  cases h : (sfpStep cfg st e true).2 <;> simp [sfpLoop, h]

theorem lowerBeforeUpper_self {T : Type} [LinearOrder T] (p : PRange T)
    (h : p.isNonempty = true) : lowerBeforeUpper p.lower p.upper = true := by
  obtain ⟨l, u⟩ := p
  cases l <;> cases u <;> simp_all [PRange.isNonempty, lowerBeforeUpper]

theorem rangesOverlap_self {T : Type} [LinearOrder T] (p : PRange T)
    (h : p.isNonempty = true) : rangesOverlap p p = true := by
  unfold rangesOverlap
  rw [h, lowerBeforeUpper_self p h]
  simp

theorem ends_after_self {T : Type} [LinearOrder T] (t : Option T) :
    ends_after t t = false := by
  cases t <;> simp [ends_after]

/-- Left-pad a decimal rendering with zeros, as `%02d`/`%04d` do. -/
def padNum (w n : Nat) : String :=
  String.mk (List.replicate (w - (toString n).length) '0') ++ toString n

/-- `str(datetime)` for whole-second instants: `YYYY-MM-DD HH:MM:SS`. -/
instance : TimeText DateTime :=
  ⟨fun d =>
    padNum 4 d.year ++ "-" ++ padNum 2 d.month.val ++ "-" ++ padNum 2 d.day.val ++ " " ++
      padNum 2 d.hour.val ++ ":" ++ padNum 2 d.minute.val ++ ":" ++ padNum 2 d.second.val⟩

/-! Fidelity checks: the embedding reproduces scenarios of the repository's
own test suite (`tests/test_temporal.py`), rows and log records alike. -/

def cfgDefault : Config := ⟨true, 20, 30, 10⟩

def cfgNoCoalesce : Config := ⟨false, 20, 30, 10⟩

example :
    set_for_period cfgDefault (⟨0, "k", "n", ⟨some 2002, none⟩⟩ : Temporal Nat)
        [⟨1, "k", "o", ⟨some 2001, none⟩⟩] =
      ([⟨1, "k", "o", ⟨some 2001, some 2002⟩⟩, ⟨2, "k", "n", ⟨some 2002, none⟩⟩],
       [⟨20, "key='k' from 2002 onwards set to n"⟩]) := by decide

example :
    set_for_period cfgNoCoalesce (⟨0, "k", "n", ⟨some 2000, none⟩⟩ : Temporal Nat)
        [⟨1, "k", "o1", ⟨some 1999, some 2001⟩⟩, ⟨2, "k", "o2", ⟨some 2001, some 2003⟩⟩] =
      ([⟨1, "k", "o1", ⟨some 1999, some 2000⟩⟩, ⟨2, "k", "o2", ⟨some 2001, some 2003⟩⟩,
        ⟨3, "k", "n", ⟨some 2000, some 2001⟩⟩],
       [⟨30, "key='k' from 2000 to 2001 changed from o1 to n"⟩]) := by decide

example :
    set_for_period cfgNoCoalesce (⟨0, "k", "v", ⟨some 2001, none⟩⟩ : Temporal Nat)
        [⟨1, "k", "v", ⟨some 2001, some 2002⟩⟩] =
      ([⟨0, "k", "v", ⟨some 2001, none⟩⟩],
       [⟨20, "key='k' changed period from 2001 to 2002 to 2001 onwards"⟩]) := by decide

/-! Claim C1. -/

def c1store : Store Nat := [⟨1, "k", "v", ⟨some 2000, some 2003⟩⟩]

def c1cand : Temporal Nat := ⟨0, "k", "v", ⟨some 2001, some 2005⟩⟩

def c1res : Store Nat × List LogEvent := set_for_period cfgNoCoalesce c1cand c1store

/-- C1: refuted by evaluation.  From the valid one-row state
`('k','v',[2000,2003))`, the call `set_for_period` with the non-empty
candidate `('k','v',[2001,2005))` and `coalesce=false` reassigns the existing
row to `[2001,2003)` (the equal-value arm of the final positional branch) and
still inserts the candidate `[2001,2005)`, leaving two overlapping rows for
the key — the invariant the claim states is violated by a single call. -/
theorem C1_overlap_created :
    pairwiseDisjoint c1store "k" ∧ allNonempty c1store "k" ∧
    c1cand.period.isNonempty = true ∧
    rows c1res.1 = [("k", "v", some 2001, some 2003), ("k", "v", some 2001, some 2005)] ∧
    ¬ pairwiseDisjoint c1res.1 "k" := by decide

/-! Claim C2. -/

def c2cand : Temporal Nat := ⟨0, "k", "v", ⟨some 2001, some 2003⟩⟩

def c2store : Store Nat := [⟨1, "k", "v", ⟨some 2002, some 2005⟩⟩]

def c2once : Store Nat × List LogEvent := set_for_period cfgDefault c2cand c2store

def c2twice : Store Nat × List LogEvent := set_for_period cfgDefault c2cand c2once.1

/-- C2: refuted by evaluation.  With the valid state `('k','v',[2002,2005))`
and the identical candidate `('k','v',[2001,2003))` repeated, the first
(coalescing) call merges to the single row `[2001,2005)`, but the second call
shrinks that row back to `[2001,2003)` — a different final state — and logs a
"changed period" event at the `set_logging` severity, not an "unchanged"
debug event. -/
theorem C2_counterexample :
    pairwiseDisjoint c2store "k" ∧ allNonempty c2store "k" ∧
    rows c2once.1 = [("k", "v", some 2001, some 2005)] ∧
    rows c2twice.1 = [("k", "v", some 2001, some 2003)] ∧
    rows c2twice.1 ≠ rows c2once.1 ∧
    c2twice.2 = [⟨20, "key='k' changed period from 2001 to 2005 to 2001 to 2003"⟩] :=
  ⟨by decide, by decide, by decide, by decide, by decide, by decide⟩

/-! Claim C3. -/

def c3store : Store Nat :=
  [⟨1, "k", "w", ⟨some 2000, some 2002⟩⟩, ⟨2, "k", "v", ⟨some 2002, some 2010⟩⟩]

def c3cand : Temporal Nat := ⟨0, "k", "v", ⟨some 2000, some 2010⟩⟩

def c3res : Store Nat × List LogEvent := set_for_period cfgDefault c3cand c3store

/-- C3: the code loses coverage.  From the valid state
`('k','w',[2000,2002)), ('k','v',[2002,2010))` the coalescing call with
candidate `('k','v',[2000,2010))` deletes the `'w'` row, then takes the
"unchanged" arm of the coalesce branch on the `'v'` row and drops the insert
(`create = false`): instant `2001` lies inside the candidate's interval but
afterwards no row for the key is valid there at all, against the claim that
the value at `2001` is the candidate's. -/
theorem C3_coverage_lost :
    pairwiseDisjoint c3store "k" ∧ allNonempty c3store "k" ∧
    c3cand.period.isNonempty = true ∧
    containsTime c3cand.period 2001 = true ∧
    value_at c3store "k" 2001 = ["w"] ∧
    rows c3res.1 = [("k", "v", some 2002, some 2010)] ∧
    value_at c3res.1 "k" 2001 = [] := by decide

/-! Claim C4. -/

def c4store : Store Nat := [⟨1, "k", "v", ⟨some 2002, none⟩⟩]

def c4cand : Temporal Nat := ⟨0, "k", "v", ⟨some 2001, some 2002⟩⟩

def c4res : Store Nat × List LogEvent := set_for_period cfgDefault c4cand c4store

def c4bstore : Store Nat := [⟨1, "k", "v", ⟨some 2001, some 2005⟩⟩]

def c4bcand : Temporal Nat := ⟨0, "k", "v", ⟨some 2001, some 2003⟩⟩

def c4bres : Store Nat × List LogEvent := set_for_period cfgDefault c4bcand c4bstore

/-- C4: refuted by evaluation, at two inputs.  First, with `coalesce=true`,
the existing row `('k','v',[2002,None))` and the merely adjacent equal-valued
candidate `('k','v',[2001,2002))`: the overlap query (Postgres `&&`) does not
fetch the adjacent row, so no merge happens and two adjacent rows with the
same value remain persisted, against the claim that no such pair survives a
call.  Second, the equal-valued existing row `('k','v',[2001,2005))` does
overlap the equal-start candidate `('k','v',[2001,2003))`, yet the result is
the candidate's own period `[2001,2003)` (the row is superseded and
re-inserted), not the claimed merged interval ending at the latest of the two
ends, `[2001,2005)`. -/
theorem C4_adjacent_not_merged :
    (rows c4res.1 = [("k", "v", some 2002, none), ("k", "v", some 2001, some 2002)] ∧
     rangesOverlap (⟨some 2001, some 2002⟩ : PRange Nat) ⟨some 2002, none⟩ = false) ∧
    (rangesOverlap c4bcand.period (⟨some 2001, some 2005⟩ : PRange Nat) = true ∧
     rows c4bres.1 = [("k", "v", some 2001, some 2003)] ∧
     rows c4bres.1 ≠ [("k", "v", some 2001, some 2005)]) :=
  ⟨⟨by decide, by decide⟩, by decide, by decide, by decide⟩

/-- C4 (amended): with `coalesce=true`, a merge happens exactly under the
coalesce branch's own conditions — the equal-valued existing row's period
`&&`-overlaps the candidate's (merely adjacent rows are never fetched), its
start differs from the candidate's start, and the absorption guard
(`current_starts_before or self_ends_after`) holds; then the single
resulting row keeps the candidate's key and value, starts at `earliest` of
the two starts and ends at `latest` of the two ends (each `None` as soon as
either side is unbounded).  Outside these conditions no union is formed: an
equal-start overlapping pair keeps the candidate's own period. -/
theorem C4_overlap_merged {T : Type} [LinearOrder T] [TimeText T] (cfg : Config)
    (c e : Temporal T)
    (hc : cfg.coalesce = true)
    (hk : e.key = c.key)
    (hv : e.value = c.value)
    (ho : rangesOverlap e.period c.period = true)
    (hf : c.value_from ≠ e.value_from)
    (habs : starts_before c.value_from e.value_from = true ∨
            ends_after c.value_to e.value_to = true) :
    rows (set_for_period cfg c [e]).1 =
      [(c.key, c.value, earliest c.value_from e.value_from,
        latest c.value_to e.value_to)] := by
  have hov : c.overlaps [e] = [e] := by
    have h0 := overlaps_append_singleton c e [] (by simp) hk ho
    simpa using h0
  have hfetch : fetchOverlapping cfg c [e] = [e] := by
    simp [fetchOverlapping, hc, hov]
  have hloop := sfpLoop_singleton cfg
    (⟨[e], c, c.value_from, c.value_from, c.value_to, true, []⟩ : LoopState T) e
  simp only [set_for_period, hfetch, hloop]
  unfold sfpStep
  rcases habs with h1 | h1 <;>
    simp [hc, decide_eq_false hf, decide_eq_true hv.symm, h1, delRec, rows,
      Temporal.setValueFrom, Temporal.setValueTo]

theorem C4_merge_witness :
    rows (set_for_period cfgDefault (⟨0, "k", "v", ⟨some 2001, none⟩⟩ : Temporal Nat)
      [⟨1, "k", "v", ⟨some 2002, none⟩⟩]).1 = [("k", "v", some 2001, none)] :=
  (C4_overlap_merged cfgDefault ⟨0, "k", "v", ⟨some 2001, none⟩⟩
    ⟨1, "k", "v", ⟨some 2002, none⟩⟩ rfl rfl rfl (by decide) (by decide)
    (Or.inl (by decide))).trans (by decide)

/-! Claim C2, amended part. -/

theorem sfpStep_unchanged {T : Type} [LinearOrder T] [TimeText T] (cfg : Config)
    (sr : Store T) (c e : Temporal T) (f : T) (lg : List LogEvent)
    (hcf : c.value_from = some f)
    (hef : e.value_from = some f)
    (het : e.value_to = c.value_to)
    (hev : e.value = c.value) :
    sfpStep cfg ⟨sr, c, c.value_from, c.value_from, c.value_to, true, lg⟩ e true =
      (⟨delRec sr e.id, c, c.value_from, c.value_to, c.value_to, true,
        lg ++ [log_unchanged cfg c c.value_from c.value_to]⟩, false) := by
  unfold sfpStep
  simp [hcf, hef, het, hev, starts_before, lt_irrefl]

/-- C2 (amended): idempotence holds for a clean insert — when the starting
state has no row of the candidate's key overlapping the candidate's
(non-empty, bounded-start) interval, calling `set_for_period` twice with the
identical candidate yields the same persisted rows as calling it once, and
the second call emits exactly one "unchanged" event at the
`unchanged_logging` severity.  (The counterexample shows the unrestricted
claim fails once the first call widens the candidate by coalescing; an
unbounded candidate start also defeats it, because `starts_before(None, None)`
holds and the second call re-inserts.) -/
theorem C2_idempotent_of_no_overlap {T : Type} [LinearOrder T] [TimeText T] (cfg : Config)
    (c : Temporal T) (store : Store T) (f : T)
    (hf : c.period.lower = some f)
    (hne : c.period.isNonempty = true)
    (hov : ∀ r ∈ store, r.key = c.key → rangesOverlap r.period c.period = false) :
    rows (set_for_period cfg c (set_for_period cfg c store).1).1 =
      rows (set_for_period cfg c store).1 ∧
    (set_for_period cfg c (set_for_period cfg c store).1).2 =
      [log_unchanged cfg c c.value_from c.value_to] := by
  have hnil : c.overlaps store = [] := overlaps_eq_nil c store hov
  have hfetch1 : fetchOverlapping cfg c store = [] := by
    unfold fetchOverlapping
    rw [hnil]
    split <;> rfl
  have h1 : (set_for_period cfg c store).1 = store ++ [{ c with id := freshId store }] := by
    simp only [set_for_period, hfetch1]
    rfl
  have hov2 : c.overlaps (store ++ [{ c with id := freshId store }]) =
      [{ c with id := freshId store }] :=
    overlaps_append_singleton c { c with id := freshId store } store hov rfl
      (rangesOverlap_self c.period hne)
  have hfetch2 : fetchOverlapping cfg c (store ++ [{ c with id := freshId store }]) =
      [{ c with id := freshId store }] := by
    unfold fetchOverlapping
    rw [hov2]
    split <;> rfl
  have hid : ∀ r ∈ store, r.id ≠ ({ c with id := freshId store } : Temporal T).id := by
    intro r hr
    have := freshId_lt store r hr
    have hcid : ({ c with id := freshId store } : Temporal T).id = freshId store := rfl
    omega
  have hdel : delRec (store ++ [{ c with id := freshId store }])
      ({ c with id := freshId store } : Temporal T).id = store :=
    delRec_append store { c with id := freshId store } hid
  have hloop2 := sfpLoop_singleton cfg
    (⟨store ++ [{ c with id := freshId store }], c, c.value_from, c.value_from,
      c.value_to, true, []⟩ : LoopState T) { c with id := freshId store }
  have hstep := sfpStep_unchanged cfg (store ++ [{ c with id := freshId store }]) c
    { c with id := freshId store } f [] hf hf rfl rfl
  rw [h1]
  constructor
  · simp only [set_for_period, hfetch2, hloop2, hstep, ends_after_self, hdel]
    simp
  · simp only [set_for_period, hfetch2, hloop2, hstep, ends_after_self, hdel]
    simp [ends_after_self]

theorem C2_idempotent_witness :
    ((⟨0, "k", "v", ⟨some 2001, some 2002⟩⟩ : Temporal Nat).period.lower = some 2001 ∧
     (⟨some 2001, some 2002⟩ : PRange Nat).isNonempty = true) ∧
    rows (set_for_period cfgDefault (⟨0, "k", "v", ⟨some 2001, some 2002⟩⟩ : Temporal Nat)
        (set_for_period cfgDefault (⟨0, "k", "v", ⟨some 2001, some 2002⟩⟩ : Temporal Nat) []).1).1 =
      rows (set_for_period cfgDefault (⟨0, "k", "v", ⟨some 2001, some 2002⟩⟩ : Temporal Nat) []).1 ∧
    (set_for_period cfgDefault (⟨0, "k", "v", ⟨some 2001, some 2002⟩⟩ : Temporal Nat)
        (set_for_period cfgDefault (⟨0, "k", "v", ⟨some 2001, some 2002⟩⟩ : Temporal Nat) []).1).2 =
      [log_unchanged cfgDefault (⟨0, "k", "v", ⟨some 2001, some 2002⟩⟩ : Temporal Nat)
        (some 2001) (some 2002)] :=
  ⟨⟨rfl, by decide⟩,
   C2_idempotent_of_no_overlap cfgDefault ⟨0, "k", "v", ⟨some 2001, some 2002⟩⟩ [] 2001
     rfl (by decide) (by simp)⟩

/-! Claim C5. -/

/-- C5: confirmed.  When the candidate's end is still unbounded and the walk
reaches a record under the special-case guard (`current_starts_before` or not
the last fetched record), and the coalesce branch does not fire, the loop
exits at this record (`break`: the remaining stream is never consulted), and
the candidate's end is closed per the three positional cases: at `existing`'s
start when the candidate starts strictly before it (no store change); adopting
`existing`'s end when the starts coincide (no-op keeping the row and skipping
the insert when the values agree, deleting the superseded row otherwise); and
otherwise adopting `existing`'s end while truncating `existing` to end at the
candidate's start. -/
theorem C5_open_ended_break {T : Type} [LinearOrder T] [TimeText T] (cfg : Config)
    (st : LoopState T) (e : Temporal T) (rest : Store T)
    (hto : st.self_to = none)
    (hguard : starts_before st.current_from e.value_from = true ∨ rest ≠ [])
    (hnc : ¬(cfg.coalesce = true ∧ st.self_from ≠ e.value_from ∧
             st.selfRec.value = e.value)) :
    sfpLoop cfg st (e :: rest) = (sfpStep cfg st e false).1 ∧
    ((starts_before st.self_from e.value_from = true →
        (sfpStep cfg st e false).1.self_to = e.value_from ∧
        (sfpStep cfg st e false).1.store = st.store) ∧
     (starts_before st.self_from e.value_from = false → st.self_from = e.value_from →
      st.selfRec.value = e.value →
        (sfpStep cfg st e false).1.self_to = e.value_to ∧
        (sfpStep cfg st e false).1.store = st.store ∧
        (sfpStep cfg st e false).1.create = false) ∧
     (starts_before st.self_from e.value_from = false → st.self_from = e.value_from →
      st.selfRec.value ≠ e.value →
        (sfpStep cfg st e false).1.self_to = e.value_to ∧
        (sfpStep cfg st e false).1.store = delRec st.store e.id) ∧
     (starts_before st.self_from e.value_from = false → st.self_from ≠ e.value_from →
        (sfpStep cfg st e false).1.self_to = e.value_to ∧
        (sfpStep cfg st e false).1.store =
          updRec st.store e.id (fun r => r.setValueTo st.self_from))) := by
  have hg1 : (cfg.coalesce && !(decide (st.self_from = e.value_from)) &&
      decide (st.selfRec.value = e.value)) = false := by
    cases hcb : cfg.coalesce with
    | false => simp
    | true =>
      by_cases h2 : st.self_from = e.value_from
      · simp [h2]
      · by_cases h3 : st.selfRec.value = e.value
        · exact absurd ⟨hcb, h2, h3⟩ hnc
        · simp [h3]
  have hbrk : (sfpStep cfg st e false).2 = true := by
    unfold sfpStep
    simp only [hg1, Bool.false_eq_true, if_false, hto, Option.isNone_none, Bool.not_false,
      Bool.or_true, Bool.true_and, Bool.and_true, if_true]
    simp only [apply_ite (Prod.snd (α := LoopState T) (β := Bool)), ite_self]
  constructor
  · cases rest with
    | nil =>
      have hcsb : starts_before st.current_from e.value_from = true := by
        rcases hguard with h | h
        · exact h
        · exact absurd rfl h
      have heq : sfpStep cfg st e true = sfpStep cfg st e false := by
        unfold sfpStep
        simp only [hcsb, Bool.true_or]
      rw [sfpLoop_singleton, heq]
    | cons r rs =>
      simp only [sfpLoop, List.isEmpty_cons, hbrk, if_true]
  · refine ⟨?_, ?_, ?_, ?_⟩
    · intro hsb
      unfold sfpStep
      simp only [hg1, Bool.false_eq_true, if_false, hto, Option.isNone_none, Bool.not_false,
        Bool.or_true, Bool.true_and, Bool.and_true, if_true]
      simp [hsb]
    · intro hsb hsf hval
      have hsb' : starts_before (T := T) e.value_from e.value_from = false := hsf ▸ hsb
      unfold sfpStep
      simp only [hg1, Bool.false_eq_true, if_false, hto, Option.isNone_none, Bool.not_false,
        Bool.or_true, Bool.true_and, Bool.and_true, if_true]
      simp [hsf, hsb', decide_eq_true hval]
    · intro hsb hsf hval
      have hsb' : starts_before (T := T) e.value_from e.value_from = false := hsf ▸ hsb
      unfold sfpStep
      simp only [hg1, Bool.false_eq_true, if_false, hto, Option.isNone_none, Bool.not_false,
        Bool.or_true, Bool.true_and, Bool.and_true, if_true]
      simp [hsf, hsb', decide_eq_false hval]
    · intro hsb hsf
      unfold sfpStep
      simp only [hg1, Bool.false_eq_true, if_false, hto, Option.isNone_none, Bool.not_false,
        Bool.or_true, Bool.true_and, Bool.and_true, if_true]
      simp [hsb, hsf]

def c5st : LoopState Nat :=
  ⟨[⟨1, "k", "o", ⟨some 2001, none⟩⟩], ⟨0, "k", "n", ⟨some 2000, none⟩⟩,
   some 2000, some 2000, none, true, []⟩

def c5e : Temporal Nat := ⟨1, "k", "o", ⟨some 2001, none⟩⟩

theorem C5_witness :
    (c5st.self_to = none ∧
     (starts_before c5st.current_from c5e.value_from = true ∨ ([] : Store Nat) ≠ []) ∧
     ¬(cfgNoCoalesce.coalesce = true ∧ c5st.self_from ≠ c5e.value_from ∧
       c5st.selfRec.value = c5e.value)) ∧
    sfpLoop cfgNoCoalesce c5st [c5e] = (sfpStep cfgNoCoalesce c5st c5e false).1 :=
  ⟨⟨rfl, Or.inl (by decide), by decide⟩,
   (C5_open_ended_break cfgNoCoalesce c5st c5e [] rfl (Or.inl (by decide)) (by decide)).1⟩

/-! Claim C6. -/

def dt2001 : DateTime := ⟨2001, 1, 1, 0, 0, 0⟩

def c6res : Store DateTime × List LogEvent :=
  set_for_period ⟨true, 20, 30, 10⟩ ⟨0, "k", "n", ⟨some dt2001, none⟩⟩ []

/-- C6: refuted by evaluation.  On the empty history the call emits exactly
one event, but its text renders `pretty_key` as `key='k'` (column name and
`repr` of the value, as the repository's own tests assert), not as the bare
`k` the claim spells out. -/
theorem C6_message_differs :
    c6res.2.map LogEvent.msg ≠ ["k from 2001-01-01 00:00:00 onwards set to n"] := by
  decide

/-- C6 (amended): inserting `key='k', value='n', from=2001-01-01, to=None`
into an empty history persists exactly the row `('k','n',2001-01-01,None)`
and emits exactly one event at the `set_logging` severity with text
`"key='k' from 2001-01-01 00:00:00 onwards set to n"`. -/
theorem C6_empty_history_insert :
    rows c6res.1 = [("k", "n", some dt2001, none)] ∧
    c6res.2 = [⟨20, "key='k' from 2001-01-01 00:00:00 onwards set to n"⟩] := by decide

/-! Claim C7. -/

/-- C7: confirmed.  A construction that passes the `period` keyword together
with a truthy `value_from` or `value_to` raises the `TypeError` immediately;
`temporalInit` is pure, so no store state is touched. -/
theorem C7_ambiguous_init_errors {T : Type} (vf vt : Option T) (pv : Option (PRange T))
    (h : vf.isSome = true ∨ vt.isSome = true) :
    temporalInit vf vt true pv =
      Except.error "period not allowed if value_from or value_to used" := by
  unfold temporalInit
  rcases h with h | h <;> simp [h]

theorem C7_witness :
    ((some 1 : Option Nat).isSome = true ∨ (none : Option Nat).isSome = true) ∧
    temporalInit (some 1 : Option Nat) none true (some ⟨some 2, none⟩) =
      Except.error "period not allowed if value_from or value_to used" :=
  ⟨Or.inl (by decide),
   C7_ambiguous_init_errors (some 1) none (some ⟨some 2, none⟩) (Or.inl (by decide))⟩

/-! Claim C8. -/

theorem sfpStep_breaks_open {T : Type} [LinearOrder T] [TimeText T] (cfg : Config)
    (st : LoopState T) (e : Temporal T)
    (hc : cfg.coalesce = false) (hto : st.self_to = none) :
    (sfpStep cfg st e false).2 = true := by
  unfold sfpStep
  simp only [hc, hto, Bool.false_and, Bool.and_false, Option.isNone_none, Bool.not_false,
    Bool.or_true, Bool.and_true, Bool.true_and, Bool.false_eq_true, if_false, if_true,
    Bool.and_self]
  simp only [apply_ite (Prod.snd (α := LoopState T) (β := Bool)), ite_self]

/-- C8: confirmed.  `set_for_period` (which fetches only the first two
overlapping rows exactly when the candidate is open-ended and `coalesce` is
off) computes the same final store and the same log records as the reference
semantics `set_for_period_allRows` that always walks every overlapping row:
with two or more overlapping rows the first iteration's open-ended special
case always breaks the loop, so rows beyond the second are never consulted. -/
theorem C8_limit2_equals_reference {T : Type} [LinearOrder T] [TimeText T]
    (cfg : Config) (self : Temporal T) (store : Store T) :
    set_for_period cfg self store = set_for_period_allRows cfg self store := by
  have key : sfpLoop cfg
      ⟨store, self, self.value_from, self.value_from, self.value_to, true, []⟩
      (fetchOverlapping cfg self store) =
      sfpLoop cfg ⟨store, self, self.value_from, self.value_from, self.value_to, true, []⟩
      (self.overlaps store) := by
    by_cases h : self.value_to.isNone && !cfg.coalesce
    · have h' : self.value_to = none ∧ cfg.coalesce = false := by
        simpa [Option.isNone_iff_eq_none] using h
      obtain ⟨hto, hc⟩ := h'
      unfold fetchOverlapping
      rw [if_pos h]
      generalize self.overlaps store = L
      match L with
      | [] => rfl
      | [a] => rfl
      | a :: b :: l2 =>
        have hbrk : (sfpStep cfg
            ⟨store, self, self.value_from, self.value_from, self.value_to, true, []⟩
            a false).2 = true :=
          sfpStep_breaks_open cfg _ a hc hto
        simp only [List.take_succ_cons, List.take_zero]
        simp only [sfpLoop, List.isEmpty_cons, hbrk, if_true]
    · unfold fetchOverlapping
      rw [if_neg h]
  simp only [set_for_period, set_for_period_allRows]
  rw [key]

/-! Claim C9. -/

/-- C9: confirmed.  Each bound setter rebuilds the period changing only its
own bound: `value_from := t` keeps the upper bound (and yields `(t, None)`
when no period was set), `value_to := t` keeps the lower bound (and yields
`(None, t)` when no period was set). -/
theorem C9_bound_setters_frame {T : Type} (l u t : Option T) :
    set_value_from (some ⟨l, u⟩) t = some ⟨t, u⟩ ∧
    set_value_from (none : Option (PRange T)) t = some ⟨t, none⟩ ∧
    set_value_to (some ⟨l, u⟩) t = some ⟨l, t⟩ ∧
    set_value_to (none : Option (PRange T)) t = some ⟨none, t⟩ :=
  ⟨rfl, rfl, rfl, rfl⟩

/-! Claim C10. -/

/-- C10: confirmed.  With `value_from = None` and `value_to = None` (the only
falsy timestamps, a `datetime` being always truthy) the presence of the
`period` keyword does not raise and its value is used; the `TypeError` occurs
exactly when a truthy bound accompanies the `period` keyword. -/
theorem C10_init_truthiness {T : Type} (p : PRange T) (vf vt : Option T)
    (pg : Bool) (pv : Option (PRange T)) :
    temporalInit (none : Option T) none true (some p) = Except.ok (some p) ∧
    ((∃ e, temporalInit vf vt pg pv = Except.error e) ↔
      (vf.isSome = true ∨ vt.isSome = true) ∧ pg = true) := by
  refine ⟨rfl, ?_⟩
  unfold temporalInit
  cases vf <;> cases vt <;> cases pg <;> simp

end Mortar
